import Mathlib

/-!
Verification development for the RouteStory backend's Route Intelligence
Engine.  The definitions below are shallow embeddings of the JavaScript /
TypeScript functions in `src/supabase/functions/generate-route/index.ts` and
`src/supabase/functions/route-status/index.ts`, and of the PL/pgSQL routines
in the repository's SQL function file.  JavaScript strings are modelled as
lists of UTF-16 code units (`List ℕ`), JavaScript numbers holding integral
values as `ℤ`/`ℕ`, fractional values as `ℚ` or `ℝ`, and the 32-bit wrap of
the JavaScript bitwise operators is made explicit.
-/

/-! ## JavaScript 32-bit integer semantics

JavaScript bitwise operators coerce their operands with `ToInt32`: the
operand is reduced modulo `2^32` and reinterpreted as a signed 32-bit value.
`<<` additionally masks the shift count with 31.  `NaN` coerces to `0` under
`ToInt32`, and every ordered comparison against `NaN` is false. -/

/-- Unsigned 32-bit pattern of an integer: the representative of `z` modulo
`2^32` in `[0, 2^32)`. -/
def toUint32 (z : ℤ) : ℕ := (z % 4294967296).toNat

/-- JavaScript `ToInt32`: the 32-bit pattern of `z` reinterpreted as a signed
value in `[-2^31, 2^31)`. -/
def toInt32 (z : ℤ) : ℤ :=
  if toUint32 z < 2147483648 then (toUint32 z : ℤ) else (toUint32 z : ℤ) - 4294967296

/-- JavaScript `a | b` on numbers: bitwise or of the 32-bit patterns,
reinterpreted as signed. -/
def jsOr (a b : ℤ) : ℤ := toInt32 (((toUint32 a ||| toUint32 b : ℕ)) : ℤ)

/-- JavaScript `a << n`: the 32-bit pattern of `a` shifted left by `n % 32`,
reinterpreted as signed. -/
def jsShl (a : ℤ) (n : ℕ) : ℤ := toInt32 (a * 2 ^ (n % 32))

/-- JavaScript `b & 0x1f`: the low five bits of the 32-bit pattern of `b`. -/
def jsAnd31 (b : ℤ) : ℤ := ((toUint32 b % 32 : ℕ) : ℤ)

/-- JavaScript `result & 1`: the low bit of the 32-bit pattern. -/
def jsAnd1 (v : ℤ) : ℤ := ((toUint32 v % 2 : ℕ) : ℤ)

/-- JavaScript `v >> 1` for a 32-bit value: arithmetic (sign-propagating)
right shift by one, i.e. floor division of the signed value by two. -/
def jsShr1 (v : ℤ) : ℤ := toInt32 v / 2

/-- JavaScript `~x` on a 32-bit value: bitwise complement, `-(x + 1)`. -/
def jsNot (x : ℤ) : ℤ := toInt32 (-(x + 1))

/-! ## Path Codec: `decodePolyline`

Embedding of `decodePolyline` (generate-route/index.ts lines 351-388).  The
encoded string is a list of UTF-16 code units.  `charCodeAt` past the end of
the string yields `NaN`, for which `NaN & 0x1f` is `0` and `NaN >= 0x20` is
false; the `[]` branches below mirror exactly that behaviour, so the
embedding is total on arbitrary input exactly as the JavaScript function is. -/

/-- Inner `do { b = encoded.charCodeAt(index++) - 63; result |= (b & 0x1f) <<
shift; shift += 5 } while (b >= 0x20)` loop of `decodePolyline` (lines
362-366 and 374-378), acting on the remaining input.  Returns the
accumulated `result` together with the number of characters consumed beyond
the first; the caller advances the index by that count plus one (the
do-while body always performs at least one `index++`). -/
def decodeVarint : List ℕ → ℕ → ℤ → ℤ × ℕ
  | [], shift, result =>
      -- charCodeAt out of range: b = NaN, (NaN & 0x1f) = 0, NaN >= 0x20 is false
      (jsOr result (jsShl 0 shift), 0)
  | c :: rest, shift, result =>
      let b : ℤ := (c : ℤ) - 63
      let result' := jsOr result (jsShl (jsAnd31 b) shift)
      if 32 ≤ b then
        let step := decodeVarint rest (shift + 5) result'
        (step.1, step.2 + 1)
      else
        (result', 0)

/-- Sign restoration `((result & 1) !== 0 ? ~(result >> 1) : (result >> 1))`
(lines 368 and 380). -/
def decodeSigned (result : ℤ) : ℤ :=
  if jsAnd1 result ≠ 0 then jsNot (jsShr1 result) else jsShr1 result

/-- Outer `while (index < encoded.length)` loop of `decodePolyline` (lines
357-385): two delta reads per iteration, accumulation into `lat`/`lng`
(exact in doubles for the magnitudes reachable here, hence modelled on `ℤ`),
and the `coordinates.push([lat / 1e5, lng / 1e5])`. -/
def decodeLoop : List ℕ → ℤ → ℤ → List (ℚ × ℚ)
  | [], _, _ => []
  | c :: restChars, lat, lng =>
      let s := c :: restChars
      let step1 := decodeVarint s 0 0
      let lat' := lat + decodeSigned step1.1
      let s1 := s.drop (step1.2 + 1)
      let step2 := decodeVarint s1 0 0
      let lng' := lng + decodeSigned step2.1
      let s2 := s1.drop (step2.2 + 1)
      ((lat' : ℚ) / 100000, (lng' : ℚ) / 100000) :: decodeLoop s2 lat' lng'
  termination_by s _ _ => s.length
  decreasing_by
    simp only [List.length_drop]
    simp only [List.length_cons]
    omega

/-- Embedding of `decodePolyline` (generate-route/index.ts lines 351-388):
decodes a Google encoded polyline into `[latitude, longitude]` pairs. -/
def decodePolyline (encoded : List ℕ) : List (ℚ × ℚ) :=
  decodeLoop encoded 0 0

/-! ## Path Codec: the inverse encoding

Modelled from the spec: the repository contains only the decoder;
spec section 4.1 states that the Path Codec "performs the inverse encoding"
(compact signed-delta, base-64-like), but no encoder appears under `src/`.
The definitions below model that missing encoder from the spec's words as
the standard polyline encoding that `decodePolyline` reverses: scale each
coordinate by `1e5`, take successive deltas, zigzag-map the sign
(`v < 0 ? ~(v << 1) : (v << 1)`), and emit the value in little-endian 5-bit
chunks, each chunk offset by 63 with bit 5 set on every chunk but the last. -/

/-- Values of coordinates on the `1e-5` decimal-degree grid: rationals that
are an integer multiple of `1/100000`. -/
def OnGrid (q : ℚ) : Prop := ∃ z : ℤ, q = (z : ℚ) / 100000

/-- Little-endian 5-bit chunks of a non-negative value, each offset by 63,
with the continuation bit (value 32) on every chunk except the last. -/
def chunkChars (n : ℕ) : List ℕ :=
  if n < 32 then [n + 63] else (n % 32 + 32 + 63) :: chunkChars (n / 32)
  termination_by n
  decreasing_by exact Nat.div_lt_self (by omega) (by omega)

/-- Zigzag sign mapping of a delta: `v < 0 ? ~(v << 1) : (v << 1)`. -/
def zigzag (v : ℤ) : ℕ := (if v < 0 then -(2 * v) - 1 else 2 * v).toNat

/-- Encoding of one signed delta. -/
def encodeSigned (v : ℤ) : List ℕ := chunkChars (zigzag v)

/-- Delta-encoding loop over the path scaled to integers, carrying the
previously emitted scaled coordinate. -/
def encodeLoop : List (ℤ × ℤ) → ℤ × ℤ → List ℕ
  | [], _ => []
  | p :: rest, prev =>
      encodeSigned (p.1 - prev.1) ++ encodeSigned (p.2 - prev.2) ++ encodeLoop rest p

/-- Scaling of a coordinate in degrees to the `1e-5` integer grid. -/
def toE5 (q : ℚ) : ℤ := round (q * 100000)

/-- Modelled from the spec: the full inverse encoder for `decodePolyline`
(spec section 4.1, "Encoding is the exact inverse"). -/
def encodePolyline (path : List (ℚ × ℚ)) : List ℕ :=
  encodeLoop (path.map (fun c => (toE5 c.1, toE5 c.2))) (0, 0)

/-! ## POI Scorer: `calculatePOIScore`

Embedding of `calculatePOIScore` (generate-route/index.ts lines 498-535).
`Math.log` forces the scorer onto `ℝ`; each local of the source function
becomes a definition of the same name. -/

/-- Rating component (line 505): `googleRating > 0 ? (googleRating / 5.0) *
0.25 : 0`. -/
noncomputable def ratingScore (googleRating : ℝ) : ℝ :=
  if 0 < googleRating then googleRating / 5.0 * 0.25 else 0

/-- Popularity component (line 508): `reviewCount > 0 ?
Math.min(Math.log(reviewCount) / Math.log(1000), 1.0) * 0.20 : 0`. -/
noncomputable def popularityScore (reviewCount : ℕ) : ℝ :=
  if 0 < reviewCount then min (Real.log reviewCount / Real.log 1000) 1.0 * 0.20 else 0

/-- Category component (lines 511-520): the `switch (poiType)` table. -/
def typeScore (poiType : String) : ℝ :=
  if poiType = "tourist_attraction" then 0.20
  else if poiType = "museum" then 0.18
  else if poiType = "historical_site" then 0.16
  else if poiType = "landmark" then 0.15
  else if poiType = "park" then 0.12
  else if poiType = "restaurant" then 0.10
  else 0.08

/-- Proximity component (lines 523-527): a step function of the distance to
the route. -/
noncomputable def distanceScore (distanceFromRoute : ℝ) : ℝ :=
  if distanceFromRoute ≤ 500 then 0.10
  else if distanceFromRoute ≤ 1000 then 0.08
  else if distanceFromRoute ≤ 2000 then 0.05
  else 0.02

/-- Constant uniqueness component (line 530): `0.15 * 0.5`. -/
def uniquenessScore : ℝ := 0.15 * 0.5

/-- Constant historical-significance component (line 531): `0.10 * 0.5`. -/
def historicalScore : ℝ := 0.10 * 0.5

/-- Pre-rounding sum of the six components (line 533). -/
noncomputable def finalScore (googleRating : ℝ) (reviewCount : ℕ)
    (poiType : String) (distanceFromRoute : ℝ) : ℝ :=
  ratingScore googleRating + popularityScore reviewCount + typeScore poiType +
    distanceScore distanceFromRoute + uniquenessScore + historicalScore

/-- Embedding of `calculatePOIScore` (lines 498-535): `Math.round(finalScore
* 100)`, a score out of 100.  JavaScript `Math.round` rounds halves toward
positive infinity, exactly Mathlib's `round`. -/
noncomputable def calculatePOIScore (googleRating : ℝ) (reviewCount : ℕ)
    (poiType : String) (distanceFromRoute : ℝ) : ℤ :=
  round (finalScore googleRating reviewCount poiType distanceFromRoute * 100)

/-! ## The duplicated database scorer: `calculate_poi_score`

Embedding of the PL/pgSQL routine `calculate_poi_score` (SQL functions file,
lines 63-115).  `google_rating DECIMAL` is nullable, hence `Option ℝ`;
`review_count INTEGER` is `ℤ`; `uniqueness_score INTEGER DEFAULT 5`.
PostgreSQL `ROUND(numeric, 2)` rounds halves away from zero. -/

/-- PostgreSQL `ROUND(x, 2)`: round to two decimal places, halves away from
zero. -/
noncomputable def pgRound2 (x : ℝ) : ℝ :=
  if x < 0 then -((round (-x * 100) : ℤ) : ℝ) / 100 else ((round (x * 100) : ℤ) : ℝ) / 100

/-- Rating component of the database scorer (lines 77-80): zero when
`google_rating IS NULL`, otherwise `(google_rating / 5.0) * 0.25`. -/
noncomputable def sqlRatingScore (google_rating : Option ℝ) : ℝ :=
  match google_rating with
  | none => 0
  | some r => r / 5.0 * 0.25

/-- Popularity component of the database scorer (lines 82-85). -/
noncomputable def sqlPopularityScore (review_count : ℤ) : ℝ :=
  if 0 < review_count then min (Real.log (review_count : ℝ) / Real.log 1000) 1.0 * 0.20 else 0

/-- Category component of the database scorer (lines 87-96): the same table
as the application scorer. -/
def sqlTypeScore (poi_type : String) : ℝ := typeScore poi_type

/-- Proximity component of the database scorer (lines 98-107): the same step
function as the application scorer. -/
noncomputable def sqlDistanceScore (distance_from_route : ℝ) : ℝ :=
  distanceScore distance_from_route

/-- Pre-rounding sum of the database scorer (lines 109-111): note the
uniqueness term `uniqueness_score / 10.0 * 0.15` and the constant `0.10`
historical-significance term (the application scorer uses `0.10 * 0.5`
there). -/
noncomputable def sqlFinalScore (google_rating : Option ℝ) (review_count : ℤ)
    (poi_type : String) (distance_from_route : ℝ) (uniqueness_score : ℤ) : ℝ :=
  sqlRatingScore google_rating + sqlPopularityScore review_count +
    sqlTypeScore poi_type + sqlDistanceScore distance_from_route +
    (uniqueness_score : ℝ) / 10.0 * 0.15 + 0.10

/-- Embedding of the PL/pgSQL `calculate_poi_score` (lines 63-115):
`ROUND(final_score * 100, 2)`, a score out of 100 with two decimals. -/
noncomputable def calculate_poi_score (google_rating : Option ℝ)
    (review_count : ℤ) (poi_type : String) (distance_from_route : ℝ)
    (uniqueness_score : ℤ := 5) : ℝ :=
  pgRound2 (sqlFinalScore google_rating review_count poi_type distance_from_route
    uniqueness_score * 100)

/-! ## POI Aggregator: `discoverPOIsNearRoute`

Embedding of `discoverPOIsNearRoute` (generate-route/index.ts lines
424-495).  The external Places service is a collaborator: its per-sample
results enter the model as a function from the sample's coordinate index to
the places returned there (a sample whose HTTP call failed contributes `[]`,
matching the `catch` that logs and continues). -/

/-- One result of the external nearby-place search, with the fields the
aggregator reads.  Absent `rating` / `user_ratings_total` / empty `types`
model missing JSON fields. -/
structure Place where
  place_id : String
  name : String
  lat : ℚ
  lng : ℚ
  types : List String
  rating : Option ℝ
  user_ratings_total : Option ℕ

/-- The candidate POI record built for one place (lines 456-473). -/
structure CandidatePOI where
  google_place_id : String
  name : String
  location : ℚ × ℚ
  poi_type : String
  google_rating : ℝ
  review_count : ℕ
  popularity_score : ℤ
  route_coordinate_index : ℕ

/-- Construction of the candidate record discovered at sample index `i`
(lines 456-473): `place.rating || 0`, `place.user_ratings_total || 0`,
`place.types?.[0] || 'tourist_attraction'` for the stored type but
`place.types?.[0] || 'unknown'` inside the score call, and distance 0. -/
noncomputable def mkCandidatePOI (place : Place) (i : ℕ) : CandidatePOI where
  google_place_id := place.place_id
  name := place.name
  location := (place.lat, place.lng)
  poi_type := (place.types.head?).getD "tourist_attraction"
  google_rating := (place.rating).getD 0
  review_count := (place.user_ratings_total).getD 0
  popularity_score :=
    calculatePOIScore ((place.rating).getD 0) ((place.user_ratings_total).getD 0)
      ((place.types.head?).getD "unknown") 0
  route_coordinate_index := i

/-- Deduplication step (lines 475-479): a candidate whose
`google_place_id` is already present is dropped, otherwise it is pushed. -/
def dedupInsert (discovered : List CandidatePOI) (poi : CandidatePOI) : List CandidatePOI :=
  if (discovered.find? (fun p => p.google_place_id == poi.google_place_id)).isSome
  then discovered
  else discovered ++ [poi]

/-- Processing of one sample point (lines 453-481): the first
`maxPOIsPerSearch = 10` places are turned into candidates and folded through
the duplicate check. -/
noncomputable def processSample (discovered : List CandidatePOI) (i : ℕ)
    (places : List Place) : List CandidatePOI :=
  (places.take 10).foldl (fun d pl => dedupInsert d (mkCandidatePOI pl i)) discovered

/-- Sample stride `Math.max(1, Math.floor(coordinates.length / 5))`
(line 437). -/
def searchInterval (len : ℕ) : ℕ := max 1 (len / 5)

/-- Coordinate indices visited by `for (let i = 0; i < coordinates.length;
i += searchInterval)` (line 439): exactly the multiples of the stride below
`len`, in increasing order. -/
def sampleIndices (len : ℕ) : List ℕ :=
  (List.range len).filter (fun i => i % searchInterval len = 0)

/-- The merged, deduplicated candidate list accumulated by the sample loop
(lines 432-489), before the final sort and cap. -/
noncomputable def discoverMerged (placesAt : ℕ → List Place) (len : ℕ) : List CandidatePOI :=
  (sampleIndices len).foldl (fun d i => processSample d i (placesAt i)) []

/-- Embedding of `discoverPOIsNearRoute` (lines 424-495): the merged
candidates sorted by descending `popularity_score` (the comparator
`(a, b) => b.popularity_score - a.popularity_score`, stable in JS engines)
and capped at 8. -/
noncomputable def discoverPOIsNearRoute (placesAt : ℕ → List Place) (len : ℕ) :
    List CandidatePOI :=
  (((discoverMerged placesAt len).mergeSort
      (fun a b => decide (b.popularity_score ≤ a.popularity_score))).take 8)

/-- Flattened traversal order of every candidate the sample loop constructs,
before deduplication: sample indices in loop order, ten places per sample. -/
noncomputable def candidateStream (placesAt : ℕ → List Place) (len : ℕ) : List CandidatePOI :=
  (sampleIndices len).flatMap (fun i => ((placesAt i).take 10).map (fun pl => mkCandidatePOI pl i))

/-! ## Progress Tracker: the generation pipeline's state writes

Embedding of the `Deno.serve` handler of generate-route/index.ts (lines
72-256) as the sequence of `GenerationState` writes it issues to the
`routes` row, as a function of the outcomes of the external calls:
`geocodeOk` (lines 107-121), `insertOk` (lines 124-147), `routeOk`
(`calculateScenicRoute` success, lines 150-176) and `updateOk` (the final
update, lines 197-213, whose error is only logged). -/

/-- Status column of the `routes` row. -/
inductive GenStatus where
  | processing
  | completed
  | failed
  deriving DecidableEq, Repr

/-- One written state of a generation request: `status` and
`generation_progress`. -/
structure GenState where
  status : GenStatus
  progress : ℕ
  deriving DecidableEq, Repr

/-- The successive `(status, generation_progress)` values written for one
request, in order: insert at `(processing, 10)` (line 133); on route failure
`(failed, 0)` (line 160); otherwise progress 40 (line 181), 70 (line 190)
and finally `(completed, 100)` (lines 205-206).  A geocoding or insert
failure returns before any (respectively any further) write. -/
def generationTrace (geocodeOk insertOk routeOk updateOk : Bool) : List GenState :=
  if !geocodeOk then []
  else if !insertOk then []
  else
    ⟨.processing, 10⟩ ::
      (if !routeOk then [⟨.failed, 0⟩]
       else ⟨.processing, 40⟩ :: ⟨.processing, 70⟩ ::
         (if updateOk then [⟨.completed, 100⟩] else []))

/-! ## Route Variant Selector: `calculateScenicRoute`

Embedding of `calculateScenicRoute` (generate-route/index.ts lines
295-348).  The Directions service response enters as data.  The turn
instruction conversion (lines 327, 339, `convertGoogleInstructionsToMapKit`)
is pure string post-processing no claim references and is omitted from the
record. -/

/-- One leg of a Google Directions route: `duration.value` and
`distance.value` are non-negative integers (seconds / meters). -/
structure DirectionsLeg where
  duration : ℕ
  distance : ℕ
  deriving DecidableEq, Repr

/-- One route of a Google Directions response. -/
structure DirectionsRoute where
  legs : List DirectionsLeg
  overview_polyline : List ℕ
  deriving DecidableEq, Repr

/-- A Google Directions response: `status` plus routes. -/
structure DirectionsData where
  status : String
  routes : List DirectionsRoute
  deriving DecidableEq, Repr

/-- The successful payload of `calculateScenicRoute` (lines 332-342). -/
structure ScenicRoute where
  coordinates : List (ℚ × ℚ)
  total_distance_meters : ℕ
  estimated_time_seconds : ℕ
  baseline_time_seconds : ℕ
  time_increase_percent : ℚ
  waypoints : List (ℚ × ℚ)
  route_path : List ℕ
  deriving DecidableEq, Repr

/-- Result of `calculateScenicRoute`: `{success: false, error}` or
`{success: true, ...}`. -/
inductive ScenicResult where
  | failure (error : String)
  | success (route : ScenicRoute)
  deriving DecidableEq, Repr

/-- Embedding of `calculateScenicRoute` (lines 295-348): missing API key and
non-`OK`/empty responses fail (lines 301-303, 315-317); an empty `legs`
array would throw reading `legs[0].duration.value` and land in the `catch`
(lines 344-347); otherwise the baseline route is returned unchanged, with
`time_increase_percent: 0` and no waypoints (lines 332-342). -/
def calculateScenicRoute (hasApiKey : Bool) (baselineData : DirectionsData) :
    ScenicResult :=
  if !hasApiKey then .failure "Google Maps API key not configured"
  else if baselineData.status ≠ "OK" ∨ baselineData.routes = [] then
    .failure "No baseline route found"
  else
    match baselineData.routes with
    | [] => .failure "No baseline route found"
    | baselineRoute :: _ =>
      match baselineRoute.legs with
      | [] => .failure "Route calculation failed"
      | leg :: _ =>
        .success
          { coordinates := decodePolyline baselineRoute.overview_polyline
            total_distance_meters := leg.distance
            estimated_time_seconds := leg.duration
            baseline_time_seconds := leg.duration
            time_increase_percent := 0
            waypoints := []
            route_path := baselineRoute.overview_polyline }

/-! ## Location validation: `validateLocationOnRoute` and the SQL functions

Embedding of `validateLocationOnRoute` (route-status/index.ts lines
158-264) together with the PL/pgSQL `is_location_on_route` (SQL functions
file, lines 28-36).  PostGIS `ST_DWithin(a, b, d)` holds exactly when the
geodesic distance between `a` and `b` is at most `d` meters; the geodesic
point-to-linestring distance itself is PostGIS-internal and enters the model
as a function parameter `geoDist`. -/

/-- A stored route path (decoded `LINESTRING` vertices). -/
def RoutePath : Type := List (ℚ × ℚ)

/-- PostGIS `ST_DWithin` on a point and a linestring, given the geodesic
point-to-path distance: true exactly when that distance is at most
`max_distance` meters. -/
def st_dwithin (dist : ℚ) (max_distance : ℚ) : Bool := dist ≤ max_distance

/-- Embedding of the PL/pgSQL `is_location_on_route` (lines 28-36):
`ST_DWithin(check_location, route_path, max_distance_meters)` with default
tolerance 100. -/
def is_location_on_route (geoDist : (ℚ × ℚ) → RoutePath → ℚ)
    (check_location : ℚ × ℚ) (route_path : RoutePath)
    (max_distance_meters : ℤ := 100) : Bool :=
  st_dwithin (geoDist check_location route_path) (max_distance_meters : ℚ)

/-- The SQL functions defined anywhere in the repository (SQL functions
file lines 4, 28, 39, 63, 118 and the two trigger helpers in the
migrations).  `calculate_distance_to_route`, which
`validateLocationOnRoute` invokes, is not among them. -/
def sqlDefinedFunctions : List String :=
  ["find_pois_near_route", "is_location_on_route", "find_stories_near_location",
   "calculate_poi_score", "get_popular_routes", "update_updated_at_column",
   "refresh_popular_routes"]

/-- A Supabase RPC call: it yields the function's rows only when the named
SQL function exists; invoking an undefined function yields an error, i.e.
no data. -/
def rpcCall (name : String) (impl : Option α) : Option α :=
  if name ∈ sqlDefinedFunctions then impl else none

/-- Row shape `{distance, nearest_lat, nearest_lng}` that
`validateLocationOnRoute` reads from the `calculate_distance_to_route` RPC
(lines 240-243). -/
structure DistanceRow where
  distance : ℚ
  nearest_lat : ℚ
  nearest_lng : ℚ
  deriving DecidableEq, Repr

/-- The response of the location-validation endpoint (lines 26-33). -/
structure LocationValidationResponse where
  on_route : Bool
  distance_from_route_meters : ℚ
  nearest_point : ℚ × ℚ
  deriving DecidableEq, Repr

/-- JavaScript `x || dflt` on an optional number: the default is taken when
the value is absent or zero (zero is falsy). -/
def jsOrDefault (v : Option ℚ) (dflt : ℚ) : ℚ :=
  match v with
  | none => dflt
  | some x => if x = 0 then dflt else x

/-- Embedding of `validateLocationOnRoute` (route-status/index.ts lines
158-264).  Inputs: the geodesic distance function (PostGIS), the rows the
`calculate_distance_to_route` function would return if it existed, the
stored route (`none` models a missing row), and the request coordinates.
The code validates the coordinate ranges (lines 178-189), 404s on a missing
route (lines 198-208), calls `is_location_on_route` with a hard-coded
200-meter tolerance (lines 211-216), and then calls the
`calculate_distance_to_route` RPC, ignoring its error (lines 232-236): the
response falls back to distance 0 and to the request point itself (lines
238-245). -/
def validateLocationOnRoute (geoDist : (ℚ × ℚ) → RoutePath → ℚ)
    (distImpl : Option DistanceRow) (route : Option RoutePath)
    (latitude longitude : ℚ) : Except String LocationValidationResponse :=
  if latitude < -90 ∨ latitude > 90 ∨ longitude < -180 ∨ longitude > 180 then
    .error "INVALID_COORDINATES"
  else
    match route with
    | none => .error "ROUTE_NOT_FOUND"
    | some route_path =>
      let validationResult := is_location_on_route geoDist (latitude, longitude) route_path 200
      let distanceResult := rpcCall "calculate_distance_to_route" distImpl
      .ok
        { on_route := validationResult
          distance_from_route_meters := jsOrDefault (distanceResult.map (·.distance)) 0
          nearest_point :=
            (jsOrDefault (distanceResult.map (·.nearest_lat)) latitude,
             jsOrDefault (distanceResult.map (·.nearest_lng)) longitude) }

/-! ## Theorems -/

/-- Helper: rounding is monotone. -/
lemma round_monotone {x y : ℝ} (h : x ≤ y) : round x ≤ round y := by
  rw [round_eq, round_eq]
  exact Int.floor_mono (by linarith)

/-- C6: decoding the empty string returns an empty Path and never an error
(the decoder's type has no error case, and the loop body is never
entered). -/
theorem c6_decode_empty : decodePolyline [] = [] := by
  simp [decodePolyline, decodeLoop]

/-- C1 counterexample: on an unrecoverable route-calculation failure the
handler writes `(failed, 0)` after the initial `(processing, 10)` insert, so
the progress value is not frozen at its last value (10) and the transition
decreases progress; the claim is false on the code. -/
theorem c1_counterexample :
    generationTrace true true false true = [⟨.processing, 10⟩, ⟨.failed, 0⟩] ∧
    ¬ List.Chain' (fun a b : GenState => a.progress ≤ b.progress)
        (generationTrace true true false true) := by
  constructor
  · decide
  · simp [generationTrace, List.chain'_cons]

/-- C1 amended: every write before the final one has status `processing`
(no transition leaves a terminal state); in the success path the progress
values 10, 40, 70, 100 are monotonically non-decreasing; but an
unrecoverable route-calculation failure writes `(failed, 0)`, resetting the
progress from 10 to 0 rather than freezing it. -/
theorem c1_amended :
    ∀ g i r u : Bool,
      ((generationTrace g i r u).dropLast.all (fun s => s.status == .processing)) = true ∧
      List.Chain' (fun a b : GenState => a.progress ≤ b.progress)
        (generationTrace g i true u) ∧
      generationTrace true true false u = [⟨.processing, 10⟩, ⟨.failed, 0⟩] := by
  intro g i r u
  cases g <;> cases i <;> cases r <;> cases u <;>
    exact ⟨by decide, by simp [generationTrace, List.chain'_cons], by decide⟩

/-- Helper: a duration never exceeds itself scaled by one plus a
non-negative budget percentage. -/
lemma duration_le_budget_scale (d : ℕ) (b : ℚ) (hb : 0 ≤ b) :
    (d : ℚ) ≤ (d : ℚ) * (1 + b / 100) := by
  have hd0 : (0 : ℚ) ≤ (d : ℚ) := by positivity
  have hb0 : (0 : ℚ) ≤ b / 100 := by positivity
  nlinarith [mul_nonneg hd0 hb0]

/-- C9: the route returned by `calculateScenicRoute` never exceeds the
caller's time-increase budget: the MVP selector returns the baseline route
itself, so for any non-negative budget the selected duration is within
`baseline * (1 + budget / 100)` and the reported time-increase percentage
is within the budget. -/
theorem c9_budget_respected :
    ∀ (hasApiKey : Bool) (baselineData : DirectionsData) (budget : ℚ)
      (route : ScenicRoute),
      0 ≤ budget →
      calculateScenicRoute hasApiKey baselineData = .success route →
      (route.estimated_time_seconds : ℚ) ≤
          (route.baseline_time_seconds : ℚ) * (1 + budget / 100) ∧
        route.time_increase_percent ≤ budget := by
  intro hasApiKey baselineData budget route hb hsucc
  unfold calculateScenicRoute at hsucc
  split at hsucc
  · exact absurd hsucc (by simp)
  · split at hsucc
    · exact absurd hsucc (by simp)
    · split at hsucc
      · exact absurd hsucc (by simp)
      · split at hsucc
        · exact absurd hsucc (by simp)
        · cases hsucc
          exact ⟨duration_le_budget_scale _ _ hb, by simpa using hb⟩

/-- C9 witness: a concrete successful directions response with baseline
duration 1000 seconds and budget 20 percent. -/
theorem c9_budget_respected_witness :
    (0 : ℚ) ≤ 20 ∧
    calculateScenicRoute true
        { status := "OK",
          routes := [{ legs := [{ duration := 1000, distance := 5000 }],
                       overview_polyline := [] }] } =
      .success
        { coordinates := [], total_distance_meters := 5000,
          estimated_time_seconds := 1000, baseline_time_seconds := 1000,
          time_increase_percent := 0, waypoints := [], route_path := [] } ∧
    ((1000 : ℚ) ≤ (1000 : ℚ) * (1 + 20 / 100) ∧ (0 : ℚ) ≤ 20) := by
  have hs :
      calculateScenicRoute true
          { status := "OK",
            routes := [{ legs := [{ duration := 1000, distance := 5000 }],
                         overview_polyline := [] }] } =
        .success
          { coordinates := [], total_distance_meters := 5000,
            estimated_time_seconds := 1000, baseline_time_seconds := 1000,
            time_increase_percent := 0, waypoints := [], route_path := [] } := by
    simp [calculateScenicRoute, decodePolyline, decodeLoop]
  refine ⟨by norm_num, hs, ?_⟩
  have h := c9_budget_respected true
    { status := "OK",
      routes := [{ legs := [{ duration := 1000, distance := 5000 }],
                   overview_polyline := [] }] } 20 _ (by norm_num) hs
  simpa using h

/-- C8 counterexample: for a stored route whose geodesic distance to the
query point is 150 meters, the endpoint reports `on_route = true` (150 is
within the hard-coded 200-meter tolerance, which no caller supplies) but
returns `distance_from_route_meters = 0` — not the actual distance 150 —
and echoes the query point as the nearest point, because the
`calculate_distance_to_route` RPC it calls is not defined in the repository
and its error is silently ignored (this holds even when rows for that RPC
are provided, here `⟨150, 3, 4⟩`); moreover 150 is not within a
caller-chosen tolerance of 100, yet nothing the caller supplies can change
the 200-meter cutoff. -/
theorem c8_counterexample :
    validateLocationOnRoute (fun _ _ => 150) (some ⟨150, 3, 4⟩)
        (some [(0, 0), (1, 1)]) 0 0 =
      .ok { on_route := true, distance_from_route_meters := 0,
            nearest_point := (0, 0) } ∧
    ¬ ((150 : ℚ) ≤ 100) ∧ (150 : ℚ) ≠ 0 := by
  refine ⟨?_, by norm_num, by norm_num⟩
  rfl

/-- C8 amended: for every stored route and every valid coordinate the
location-validation operation returns without error, and reports
`on_route = true` exactly when the point's geodesic distance to the route
path is at most the hard-coded 200-meter tolerance (the tolerance is not
caller-supplied); the returned distance is always 0 and the returned
nearest point is the queried point itself, because the
`calculate_distance_to_route` SQL function the code invokes does not exist
in the repository and the resulting RPC error is ignored. -/
theorem c8_amended :
    ∀ (geoDist : (ℚ × ℚ) → RoutePath → ℚ) (distImpl : Option DistanceRow)
      (route_path : RoutePath) (lat lng : ℚ),
      -90 ≤ lat → lat ≤ 90 → -180 ≤ lng → lng ≤ 180 →
      validateLocationOnRoute geoDist distImpl (some route_path) lat lng =
        .ok { on_route := st_dwithin (geoDist (lat, lng) route_path) 200,
              distance_from_route_meters := 0,
              nearest_point := (lat, lng) } := by
  intro geoDist distImpl route_path lat lng h1 h2 h3 h4
  have hvalid : ¬ (lat < -90 ∨ lat > 90 ∨ lng < -180 ∨ lng > 180) := by
    push_neg
    exact ⟨by linarith, by linarith, by linarith, by linarith⟩
  simp only [validateLocationOnRoute, if_neg hvalid]
  simp [is_location_on_route, rpcCall, sqlDefinedFunctions, jsOrDefault]

/-- C8 amended witness: the amended theorem applied at a point 150 meters
from a concrete stored route, with all hypotheses discharged concretely. -/
theorem c8_amended_witness :
    (-90 ≤ (10 : ℚ) ∧ (10 : ℚ) ≤ 90 ∧ -180 ≤ (20 : ℚ) ∧ (20 : ℚ) ≤ 180) ∧
    validateLocationOnRoute (fun _ _ => 150) none (some [(0, 0)]) 10 20 =
      .ok { on_route := st_dwithin ((fun (_ : ℚ × ℚ) (_ : RoutePath) => (150 : ℚ)) (10, 20) [(0, 0)]) 200,
            distance_from_route_meters := 0, nearest_point := (10, 20) } := by
  refine ⟨⟨by norm_num, by norm_num, by norm_num, by norm_num⟩, ?_⟩
  exact c8_amended (fun _ _ => 150) none [(0, 0)] 10 20
    (by norm_num) (by norm_num) (by norm_num) (by norm_num)

/-- C2 counterexample: the one-character input `"_"` (code unit 95, whose
six-bit chunk has the continuation bit set, so the byte stream terminates in
the middle of a delta) does not fail: `decodePolyline` returns the
non-empty Path `[(0, 0)]`.  The out-of-range `charCodeAt` yields `NaN`,
`NaN >= 0x20` is false, and both delta loops exit normally, so the truncated
delta is silently absorbed into a coordinate rather than raising any
malformed-input error (the decoder has no error outcome at all). -/
theorem c2_counterexample :
    decodePolyline [95] = [((0 : ℚ), (0 : ℚ))] ∧ decodePolyline [95] ≠ [] := by
  have h1 : decodeVarint [95] 0 0 = (0, 1) := by decide
  have h2 : decodeVarint [] 0 0 = (0, 0) := by decide
  have h3 : decodeSigned 0 = 0 := by decide
  constructor
  · rw [decodePolyline, decodeLoop]
    simp [h1, h2, h3, decodeLoop]
  · rw [decodePolyline, decodeLoop]
    simp [h1, h2, h3]

/-- C2 amended: an encoded input whose byte stream terminates mid-delta is
not an error: `decodePolyline` is total and silently absorbs the truncated
delta, and in fact every non-empty input string decodes to a non-empty
Path (never an error and never an empty Path). -/
theorem c2_amended :
    ∀ encoded : List ℕ, encoded ≠ [] → decodePolyline encoded ≠ [] := by
  intro encoded hne
  match encoded with
  | [] => exact absurd rfl hne
  | c :: rest =>
    rw [decodePolyline, decodeLoop]
    exact List.cons_ne_nil _ _

/-- C2 amended witness: the amended theorem applied to the mid-delta input
`"_"`. -/
theorem c2_amended_witness :
    ([95] : List ℕ) ≠ [] ∧ decodePolyline [95] ≠ [] :=
  ⟨by decide, c2_amended [95] (by decide)⟩

/-- Helper for C10: each iteration of the decoding loop consumes at least
two characters of the remaining input and emits exactly one coordinate, so
the output length is bounded by half the input length (rounded up). -/
lemma decodeLoop_length_le :
    ∀ (n : ℕ) (s : List ℕ), s.length ≤ n → ∀ lat lng : ℤ,
      2 * (decodeLoop s lat lng).length ≤ s.length + 1 := by
  intro n
  induction n with
  | zero =>
    intro s hs lat lng
    have : s = [] := List.eq_nil_of_length_eq_zero (by omega)
    subst this
    simp [decodeLoop]
  | succ n ih =>
    intro s hs lat lng
    match s with
    | [] => simp [decodeLoop]
    | c :: rest =>
      rw [decodeLoop]
      simp only [List.length_cons] at hs
      have hdrop :
          (((c :: rest).drop ((decodeVarint (c :: rest) 0 0).2 + 1)).drop
              ((decodeVarint ((c :: rest).drop ((decodeVarint (c :: rest) 0 0).2 + 1)) 0 0).2 + 1)).length ≤ n := by
        simp only [List.length_drop, List.length_cons]
        omega
      have hrec := ih _ hdrop
        (lat + decodeSigned (decodeVarint (c :: rest) 0 0).1)
        (lng + decodeSigned (decodeVarint ((c :: rest).drop ((decodeVarint (c :: rest) 0 0).2 + 1)) 0 0).1)
      simp only [List.length_cons, List.length_drop] at hrec ⊢
      omega

/-- Helper: characterisation of `round` by bracketing the half-offset. -/
lemma round_eq_int (x : ℝ) (z : ℤ) (h1 : (z : ℝ) ≤ x + 1 / 2)
    (h2 : x + 1 / 2 < (z : ℝ) + 1) : round x = z := by
  rw [round_eq]
  exact Int.floor_eq_iff.mpr ⟨h1, by linarith⟩

/-- Helper: the rating components of the two scorers agree on non-negative
ratings (the application guards on `rating > 0`, the database on
`IS NOT NULL`; at rating 0 both vanish). -/
lemma sqlRatingScore_eq (r : ℝ) (hr : 0 ≤ r) :
    sqlRatingScore (some r) = ratingScore r := by
  unfold sqlRatingScore ratingScore
  rcases eq_or_lt_of_le hr with h | h
  · rw [if_neg (by rw [← h]; exact lt_irrefl 0), ← h]
    norm_num
  · rw [if_pos h]

/-- Helper: the popularity components of the two scorers agree. -/
lemma sqlPopularityScore_eq (c : ℕ) :
    sqlPopularityScore (c : ℤ) = popularityScore c := by
  unfold sqlPopularityScore popularityScore
  by_cases hc : 0 < c
  · rw [if_pos (by exact_mod_cast hc), if_pos hc]
    norm_num
  · rw [if_neg (by exact_mod_cast hc), if_neg hc]

/-- Helper: the pre-rounding database score at the default uniqueness value
is exactly the pre-rounding application score plus `1/20` (the only
difference is the historical-significance constant: `0.10` in SQL versus
`0.10 * 0.5` in the application code). -/
lemma sqlFinalScore_eq (r : ℝ) (c : ℕ) (t : String) (d : ℝ) (hr : 0 ≤ r) :
    sqlFinalScore (some r) (c : ℤ) t d 5 = finalScore r c t d + 1 / 20 := by
  unfold sqlFinalScore finalScore
  rw [sqlRatingScore_eq r hr, sqlPopularityScore_eq c]
  unfold sqlTypeScore sqlDistanceScore uniquenessScore historicalScore
  push_cast
  ring

/-- Helper: the category component is at least the default 0.08 for every
category string. -/
lemma typeScore_ge (t : String) : 0.08 ≤ typeScore t := by
  unfold typeScore
  split_ifs <;> norm_num

/-- Helper: the category component is at most 0.20. -/
lemma typeScore_le (t : String) : typeScore t ≤ 0.20 := by
  unfold typeScore
  split_ifs <;> norm_num

/-- Helper: the proximity component is at least 0.02 for every distance. -/
lemma distanceScore_ge (d : ℝ) : 0.02 ≤ distanceScore d := by
  unfold distanceScore
  split_ifs <;> norm_num

/-- Helper: the proximity component is at most 0.10. -/
lemma distanceScore_le (d : ℝ) : distanceScore d ≤ 0.10 := by
  unfold distanceScore
  split_ifs <;> norm_num

/-- Helper: the rating component is non-negative. -/
lemma ratingScore_nonneg (r : ℝ) : 0 ≤ ratingScore r := by
  unfold ratingScore
  split_ifs with h
  · nlinarith [h]
  · exact le_refl 0

/-- Helper: the popularity component is always non-negative. -/
lemma popularityScore_nonneg (c : ℕ) : 0 ≤ popularityScore c := by
  unfold popularityScore
  split_ifs with h
  · have hc1 : (1 : ℝ) ≤ (c : ℝ) := by exact_mod_cast h
    have hlog : 0 ≤ Real.log (c : ℝ) := Real.log_nonneg hc1
    have hlog1000 : 0 < Real.log 1000 := Real.log_pos (by norm_num)
    have hmin : 0 ≤ min (Real.log (c : ℝ) / Real.log 1000) 1.0 :=
      le_min (div_nonneg hlog hlog1000.le) (by norm_num)
    nlinarith
  · exact le_refl 0

/-- Helper: the popularity component is at most 0.20. -/
lemma popularityScore_le (c : ℕ) : popularityScore c ≤ 0.20 := by
  unfold popularityScore
  split_ifs with h
  · have hmin : min (Real.log (c : ℝ) / Real.log 1000) 1.0 ≤ 1.0 := min_le_right _ _
    nlinarith
  · norm_num

/-- Helper: the pre-rounding application score is non-negative for a
non-negative rating. -/
lemma finalScore_nonneg (r : ℝ) (c : ℕ) (t : String) (d : ℝ) :
    0 ≤ finalScore r c t d := by
  unfold finalScore uniquenessScore historicalScore
  have h1 := ratingScore_nonneg r
  have h2 := popularityScore_nonneg c
  have h3 := typeScore_ge t
  have h4 := distanceScore_ge d
  nlinarith

/-- Helper: `pgRound2` shifts over integer additions of multiples of
`1/100`; five is such a multiple. -/
lemma pgRound2_add_five (x : ℝ) (hx : 0 ≤ x) : pgRound2 (x + 5) = pgRound2 x + 5 := by
  unfold pgRound2
  rw [if_neg (by linarith), if_neg (by linarith)]
  have h : (x + 5) * 100 = x * 100 + (500 : ℤ) := by push_cast; ring
  rw [h, round_add_int]
  push_cast
  ring

/-- Helper: `pgRound2` moves a non-negative value by at most `1/200`. -/
lemma pgRound2_close (x : ℝ) (hx : 0 ≤ x) : |pgRound2 x - x| ≤ 1 / 200 := by
  unfold pgRound2
  rw [if_neg (by linarith)]
  have h := abs_sub_round (x * 100)
  have heq : ((round (x * 100) : ℤ) : ℝ) / 100 - x = (((round (x * 100) : ℤ) : ℝ) - x * 100) / 100 := by
    ring
  rw [heq, abs_div, abs_of_pos (by norm_num : (0:ℝ) < 100)]
  rw [abs_sub_comm] at h
  linarith

/-- C3 counterexample: at the input tuple `(rating 0, reviews 0,
'tourist_attraction', distance 0)` the application scorer returns 43 while
the database scorer with its default uniqueness argument returns 47.5: the
two implementations do not compute the same function (the SQL routine
hard-codes `0.10` for historical significance where the application code
uses `0.10 * 0.5`, and the SQL routine keeps two decimals where the
application rounds to an integer). -/
theorem c3_counterexample :
    calculatePOIScore 0 0 "tourist_attraction" 0 = 43 ∧
    calculate_poi_score (some 0) 0 "tourist_attraction" 0 5 = 47.5 ∧
    ((43 : ℤ) : ℝ) ≠ (47.5 : ℝ) := by
  have happ : finalScore 0 0 "tourist_attraction" 0 = 0.425 := by
    unfold finalScore ratingScore popularityScore typeScore distanceScore
      uniquenessScore historicalScore
    norm_num
  have hsql : sqlFinalScore (some 0) 0 "tourist_attraction" 0 5 = 0.475 := by
    have h0 : ((0 : ℕ) : ℤ) = 0 := rfl
    rw [← h0, sqlFinalScore_eq 0 0 "tourist_attraction" 0 le_rfl, happ]
    norm_num
  refine ⟨?_, ?_, by norm_num⟩
  · unfold calculatePOIScore
    rw [happ]
    have : (0.425 : ℝ) * 100 = 42.5 := by norm_num
    rw [this]
    exact round_eq_int _ 43 (by norm_num) (by norm_num)
  · unfold calculate_poi_score
    rw [hsql]
    unfold pgRound2
    rw [if_neg (by norm_num)]
    have : (0.475 : ℝ) * 100 * 100 = ((4750 : ℤ) : ℝ) := by norm_num
    rw [this, round_intCast]
    norm_num

/-- C3 amended: the application scorer and the database scorer (with its
default uniqueness argument) do not compute one and the same function:
component-wise they agree except that the database's pre-rounding score is
exactly the application's pre-rounding score plus `1/20` (five points on the
0-100 scale), and the database rounds to two decimals where the application
rounds to an integer, so the database score always equals
`pgRound2(100 * raw) + 5` and exceeds the application score by 5 up to a
rounding discrepancy of at most 0.505. -/
theorem c3_amended :
    ∀ (r : ℝ) (c : ℕ) (t : String) (d : ℝ), 0 ≤ r →
      calculate_poi_score (some r) (c : ℤ) t d 5 =
          pgRound2 (finalScore r c t d * 100) + 5 ∧
        |calculate_poi_score (some r) (c : ℤ) t d 5 -
            ((calculatePOIScore r c t d : ℤ) : ℝ) - 5| ≤ 0.505 := by
  intro r c t d hr
  have hF : 0 ≤ finalScore r c t d := finalScore_nonneg r c t d
  have hF100 : 0 ≤ finalScore r c t d * 100 := by nlinarith
  have hdb : calculate_poi_score (some r) (c : ℤ) t d 5 =
      pgRound2 (finalScore r c t d * 100) + 5 := by
    unfold calculate_poi_score
    rw [sqlFinalScore_eq r c t d hr]
    have h : (finalScore r c t d + 1 / 20) * 100 = finalScore r c t d * 100 + 5 := by
      ring
    rw [h, pgRound2_add_five _ hF100]
  refine ⟨hdb, ?_⟩
  rw [hdb]
  unfold calculatePOIScore
  have h1 := pgRound2_close (finalScore r c t d * 100) hF100
  have h2 := abs_sub_round (finalScore r c t d * 100)
  have heq : pgRound2 (finalScore r c t d * 100) + 5 -
      ((round (finalScore r c t d * 100) : ℤ) : ℝ) - 5 =
      (pgRound2 (finalScore r c t d * 100) - finalScore r c t d * 100) +
        (finalScore r c t d * 100 - ((round (finalScore r c t d * 100) : ℤ) : ℝ)) := by
    ring
  rw [heq]
  calc |(pgRound2 (finalScore r c t d * 100) - finalScore r c t d * 100) +
        (finalScore r c t d * 100 - ((round (finalScore r c t d * 100) : ℤ) : ℝ))| ≤
      |pgRound2 (finalScore r c t d * 100) - finalScore r c t d * 100| +
        |finalScore r c t d * 100 - ((round (finalScore r c t d * 100) : ℤ) : ℝ)| :=
        abs_add _ _
    _ ≤ 1 / 200 + 1 / 2 := add_le_add h1 h2
    _ ≤ 0.505 := by norm_num

/-- C3 amended witness: the amended theorem applied at rating 1, no
reviews, category `museum`, distance 0. -/
theorem c3_amended_witness :
    (0 : ℝ) ≤ 1 ∧
    (calculate_poi_score (some 1) ((0 : ℕ) : ℤ) "museum" 0 5 =
        pgRound2 (finalScore 1 0 "museum" 0 * 100) + 5 ∧
      |calculate_poi_score (some 1) ((0 : ℕ) : ℤ) "museum" 0 5 -
          ((calculatePOIScore 1 0 "museum" 0 : ℤ) : ℝ) - 5| ≤ 0.505) :=
  ⟨by norm_num, c3_amended 1 0 "museum" 0 (by norm_num)⟩

/-- Helper: the rating component vanishes at rating zero. -/
lemma ratingScore_zero : ratingScore 0 = 0 := by
  unfold ratingScore
  norm_num

/-- Helper: the popularity component vanishes at zero reviews. -/
lemma popularityScore_zero : popularityScore 0 = 0 := by
  unfold popularityScore
  norm_num

/-- Helper: the rating component is monotone from any non-negative rating. -/
lemma ratingScore_mono {r r' : ℝ} (h : r ≤ r') : ratingScore r ≤ ratingScore r' := by
  unfold ratingScore
  split_ifs with h1 h2 h2
  · linarith
  · linarith
  · nlinarith [h2]
  · exact le_refl 0

/-- Helper: the rating component is bounded by 0.25 for ratings at most
five. -/
lemma ratingScore_le {r : ℝ} (h : r ≤ 5) : ratingScore r ≤ 0.25 := by
  unfold ratingScore
  split_ifs with h1
  · nlinarith
  · norm_num

/-- Helper: the popularity component is monotone in the review count. -/
lemma popularityScore_mono {c c' : ℕ} (h : c ≤ c') :
    popularityScore c ≤ popularityScore c' := by
  by_cases h1 : 0 < c
  · have h2 : 0 < c' := lt_of_lt_of_le h1 h
    unfold popularityScore
    rw [if_pos h1, if_pos h2]
    have hlog : Real.log (c : ℝ) ≤ Real.log (c' : ℝ) :=
      Real.log_le_log (by exact_mod_cast h1) (by exact_mod_cast h)
    have hlog1000 : 0 < Real.log 1000 := Real.log_pos (by norm_num)
    have hdiv : Real.log (c : ℝ) / Real.log 1000 ≤ Real.log (c' : ℝ) / Real.log 1000 :=
      (div_le_div_iff_of_pos_right hlog1000).mpr hlog
    have hmin : min (Real.log (c : ℝ) / Real.log 1000) 1.0 ≤
        min (Real.log (c' : ℝ) / Real.log 1000) 1.0 := min_le_min hdiv le_rfl
    nlinarith
  · have hz : c = 0 := by omega
    subst hz
    rw [popularityScore_zero]
    exact popularityScore_nonneg c'

/-- Helper: monotonicity of the application scorer in rating and review
count over the fixed category `tourist_attraction` at distance 0, for
non-negative ratings. -/
lemma calculatePOIScore_mono {r r' : ℝ} {c c' : ℕ} (hr : r ≤ r') (hc : c ≤ c') :
    calculatePOIScore r c "tourist_attraction" 0 ≤
      calculatePOIScore r' c' "tourist_attraction" 0 := by
  unfold calculatePOIScore
  apply round_monotone
  have h1 := ratingScore_mono hr
  have h2 := popularityScore_mono hc
  unfold finalScore
  nlinarith

/-- Helper: bounds of the application scorer for ratings in `[0, 5]`. -/
lemma calculatePOIScore_bounds {r : ℝ} (c : ℕ) (hr5 : r ≤ 5) :
    0 ≤ calculatePOIScore r c "tourist_attraction" 0 ∧
      calculatePOIScore r c "tourist_attraction" 0 ≤ 100 := by
  have hf0 : 0 ≤ finalScore r c "tourist_attraction" 0 := finalScore_nonneg r c _ _
  have hup : finalScore r c "tourist_attraction" 0 ≤ 0.875 := by
    have h1 := ratingScore_le hr5
    have h2 := popularityScore_le c
    have h3 : typeScore "tourist_attraction" = 0.20 := by unfold typeScore; norm_num
    have h4 : distanceScore (0 : ℝ) ≤ 0.10 := distanceScore_le 0
    unfold finalScore uniquenessScore historicalScore
    rw [h3]
    nlinarith
  constructor
  · unfold calculatePOIScore
    have : round (0 : ℝ) ≤ round (finalScore r c "tourist_attraction" 0 * 100) :=
      round_monotone (by nlinarith)
    simpa using this
  · unfold calculatePOIScore
    have h88 : round ((87.5 : ℝ)) = 88 := round_eq_int _ 88 (by norm_num) (by norm_num)
    have : round (finalScore r c "tourist_attraction" 0 * 100) ≤ round ((87.5 : ℝ)) :=
      round_monotone (by nlinarith)
    rw [h88] at this
    omega

/-- C4: over the grid of ratings `{0, 2.5, 5}` and review counts
`{0, 10, 1000, 1000000}` at category `tourist_attraction` and distance 0,
the application scorer is monotonically non-decreasing in both arguments
and always lies in `[0, 100]`; the scorer is a pure total function, and a
candidate with no rating and no reviews still receives a non-zero score
(at least 1, from the constant components) for every category and
distance. -/
theorem c4_scorer_grid :
    (∀ (r r' : ℝ) (c c' : ℕ),
        (r = 0 ∨ r = 2.5 ∨ r = 5) → (r' = 0 ∨ r' = 2.5 ∨ r' = 5) →
        (c = 0 ∨ c = 10 ∨ c = 1000 ∨ c = 1000000) →
        (c' = 0 ∨ c' = 10 ∨ c' = 1000 ∨ c' = 1000000) →
        r ≤ r' → c ≤ c' →
        calculatePOIScore r c "tourist_attraction" 0 ≤
          calculatePOIScore r' c' "tourist_attraction" 0) ∧
    (∀ (r : ℝ) (c : ℕ),
        (r = 0 ∨ r = 2.5 ∨ r = 5) → (c = 0 ∨ c = 10 ∨ c = 1000 ∨ c = 1000000) →
        0 ≤ calculatePOIScore r c "tourist_attraction" 0 ∧
          calculatePOIScore r c "tourist_attraction" 0 ≤ 100) ∧
    (∀ (t : String) (d : ℝ), 1 ≤ calculatePOIScore 0 0 t d) := by
  refine ⟨?_, ?_, ?_⟩
  · intro r r' c c' _ _ _ _ hr hc
    exact calculatePOIScore_mono hr hc
  · intro r c hrg _
    have hr5 : r ≤ 5 := by rcases hrg with h | h | h <;> rw [h] <;> norm_num
    exact calculatePOIScore_bounds c hr5
  · intro t d
    have hval : finalScore 0 0 t d * 100 ≥ 22.5 := by
      have h3 := typeScore_ge t
      have h4 := distanceScore_ge d
      unfold finalScore uniquenessScore historicalScore
      rw [ratingScore_zero, popularityScore_zero]
      nlinarith
    have h23 : round ((22.5 : ℝ)) = 23 := round_eq_int _ 23 (by norm_num) (by norm_num)
    have hmono : round ((22.5 : ℝ)) ≤ round (finalScore 0 0 t d * 100) :=
      round_monotone (by linarith)
    unfold calculatePOIScore
    rw [h23] at hmono
    omega

/-- C4 witness: the theorem instantiated on concrete grid points — the
score is monotone from `(0, 0)` to `(2.5, 10)`, bounded at `(5, 1000)`,
and non-zero for an unrated, unreviewed candidate of unknown category
300 meters away. -/
theorem c4_scorer_grid_witness :
    ((0 : ℝ) = 0 ∨ (0 : ℝ) = 2.5 ∨ (0 : ℝ) = 5) ∧
    (calculatePOIScore 0 0 "tourist_attraction" 0 ≤
        calculatePOIScore 2.5 10 "tourist_attraction" 0) ∧
    (0 ≤ calculatePOIScore 5 1000 "tourist_attraction" 0 ∧
        calculatePOIScore 5 1000 "tourist_attraction" 0 ≤ 100) ∧
    1 ≤ calculatePOIScore 0 0 "unknown" 300 := by
  refine ⟨Or.inl rfl, ?_, ?_, ?_⟩
  · exact c4_scorer_grid.1 0 2.5 0 10 (Or.inl rfl) (Or.inr (Or.inl rfl))
      (Or.inl rfl) (Or.inr (Or.inl rfl)) (by norm_num) (by norm_num)
  · exact c4_scorer_grid.2.1 5 1000 (Or.inr (Or.inr rfl))
      (Or.inr (Or.inr (Or.inl rfl)))
  · exact c4_scorer_grid.2.2 "unknown" 300

/-- C10: the polyline decoder is total on arbitrary input: for every input
string it terminates (it is a well-founded Lean function) and returns a
finite coordinate list without any error outcome; since the outer loop
index strictly increases by at least two per emitted coordinate, the output
holds at most `(length + 1) / 2` coordinates. -/
theorem c10_decoder_total :
    ∀ encoded : List ℕ, 2 * (decodePolyline encoded).length ≤ encoded.length + 1 := by
  intro encoded
  exact decodeLoop_length_le encoded.length encoded le_rfl 0 0

/-- Helper: the first match in the accumulated deduplicated list is the
first match of the accumulator, and otherwise the first match of the
remaining traversal. -/
lemma foldl_dedupInsert_find? (pid : String) :
    ∀ (l acc : List CandidatePOI),
      ((l.foldl dedupInsert acc).find? (fun p => p.google_place_id == pid)) =
        ((acc.find? (fun p => p.google_place_id == pid)).or
          (l.find? (fun p => p.google_place_id == pid))) := by
  intro l
  induction l with
  | nil => intro acc; simp
  | cons x xs ih =>
    intro acc
    rw [List.foldl_cons, ih]
    unfold dedupInsert
    by_cases h : (acc.find? (fun p => p.google_place_id == x.google_place_id)).isSome
    · rw [if_pos h]
      by_cases hx : (x.google_place_id == pid) = true
      · have hxe : x.google_place_id = pid := eq_of_beq hx
        rw [hxe] at h
        obtain ⟨q, hq⟩ := Option.isSome_iff_exists.mp h
        rw [hq]
        simp
      · rw [List.find?_cons_of_neg _ (by simpa using hx)]
    · rw [if_neg h]
      rw [List.find?_append, Option.or_assoc]
      congr 1
      by_cases hx : (x.google_place_id == pid) = true
      · simp [List.find?_cons, hx]
      · simp [List.find?_cons, hx]

/-- Helper: the deduplicated accumulation only ever holds candidates taken
from the accumulator or from the traversal. -/
lemma mem_of_mem_foldl_dedupInsert {x : CandidatePOI} :
    ∀ (l acc : List CandidatePOI), x ∈ l.foldl dedupInsert acc → x ∈ acc ∨ x ∈ l := by
  intro l
  induction l with
  | nil => intro acc h; exact Or.inl (by simpa using h)
  | cons a t ih =>
    intro acc h
    rw [List.foldl_cons] at h
    rcases ih _ h with h1 | h1
    · unfold dedupInsert at h1
      split_ifs at h1 with hc
      · exact Or.inl h1
      · rcases List.mem_append.mp h1 with h2 | h2
        · exact Or.inl h2
        · simp only [List.mem_singleton] at h2
          subst h2
          exact Or.inr (List.mem_cons_self _ _)
    · exact Or.inr (List.mem_cons_of_mem _ h1)

/-- Helper: the duplicate check keeps at most one candidate per external
identifier. -/
lemma countP_foldl_dedupInsert (pid : String) :
    ∀ (l acc : List CandidatePOI),
      acc.countP (fun p => p.google_place_id == pid) ≤ 1 →
      (l.foldl dedupInsert acc).countP (fun p => p.google_place_id == pid) ≤ 1 := by
  intro l
  induction l with
  | nil => intro acc h; simpa using h
  | cons a t ih =>
    intro acc h
    rw [List.foldl_cons]
    apply ih
    unfold dedupInsert
    split_ifs with hc
    · exact h
    · rw [List.countP_append]
      by_cases ha : (a.google_place_id == pid) = true
      · have hae : a.google_place_id = pid := eq_of_beq ha
        have hnone : acc.find? (fun p => p.google_place_id == a.google_place_id) = none :=
          Option.not_isSome_iff_eq_none.mp hc
        have hzero : acc.countP (fun p => p.google_place_id == pid) = 0 := by
          rw [List.countP_eq_zero]
          intro q hq
          have hne := List.find?_eq_none.mp hnone q hq
          rw [← hae]
          exact hne
        rw [hzero]
        simp [ha]
      · have hone : List.countP (fun p => p.google_place_id == pid) [a] = 0 := by
          simp [ha]
        rw [hone]
        omega

/-- Helper: in a list holding at most one match, any member that matches is
the first match. -/
lemma find?_eq_of_countP_le_one {p : CandidatePOI → Bool} :
    ∀ (l : List CandidatePOI) (x : CandidatePOI),
      x ∈ l → p x = true → l.countP p ≤ 1 → l.find? p = some x := by
  intro l
  induction l with
  | nil => intro x hx; simp at hx
  | cons a t ih =>
    intro x hx hp hc
    by_cases ha : (p a) = true
    · rw [List.find?_cons_of_pos _ ha]
      rcases List.mem_cons.mp hx with rfl | hxt
      · rfl
      · exfalso
        have h1 : 0 < t.countP p := List.countP_pos_iff.mpr ⟨x, hxt, hp⟩
        simp only [List.countP_cons, if_pos ha] at hc
        omega
    · rw [List.find?_cons_of_neg _ (by simpa using ha)]
      rcases List.mem_cons.mp hx with rfl | hxt
      · exact absurd hp ha
      · apply ih x hxt hp
        simp only [List.countP_cons, if_neg ha, add_zero] at hc
        exact hc

/-- Helper: the first match of a list sorted by sample index has the
smallest sample index among all matches. -/
lemma find?_index_min {p : CandidatePOI → Bool} :
    ∀ (l : List CandidatePOI) (x : CandidatePOI),
      l.Pairwise (fun a b => a.route_coordinate_index ≤ b.route_coordinate_index) →
      l.find? p = some x →
      ∀ y ∈ l, p y = true → x.route_coordinate_index ≤ y.route_coordinate_index := by
  intro l
  induction l with
  | nil => intro x _ h; simp at h
  | cons a t ih =>
    intro x hpw hf y hy hpy
    rcases List.pairwise_cons.mp hpw with ⟨hab, hpt⟩
    by_cases ha : (p a) = true
    · rw [List.find?_cons_of_pos _ ha] at hf
      cases hf
      rcases List.mem_cons.mp hy with rfl | hyt
      · exact le_refl _
      · exact hab y hyt
    · rw [List.find?_cons_of_neg _ (by simpa using ha)] at hf
      rcases List.mem_cons.mp hy with rfl | hyt
      · exact absurd hpy ha
      · exact ih x hpt hf y hyt hpy

/-- Helper: the candidate traversal order is sorted by the discovering
sample's coordinate index, because the sample loop walks the indices in
increasing order and every candidate of one sample carries that sample's
index. -/
lemma candidateStream_pairwise (placesAt : ℕ → List Place) (len : ℕ) :
    (candidateStream placesAt len).Pairwise
      (fun a b => a.route_coordinate_index ≤ b.route_coordinate_index) := by
  unfold candidateStream
  rw [List.pairwise_flatMap]
  constructor
  · intro i _
    rw [List.pairwise_map]
    have htriv : ∀ (l : List Place),
        l.Pairwise (fun a b =>
          (mkCandidatePOI a i).route_coordinate_index ≤
            (mkCandidatePOI b i).route_coordinate_index) := by
      intro l
      induction l with
      | nil => exact List.Pairwise.nil
      | cons a t iht => exact List.Pairwise.cons (fun b _ => le_refl _) iht
    exact htriv _
  · have hlt : (sampleIndices len).Pairwise (· < ·) := by
      unfold sampleIndices
      exact (List.pairwise_lt_range len).filter _
    apply hlt.imp
    intro i j hij
    intro x hx y hy
    obtain ⟨px, _, hpx⟩ := List.mem_map.mp hx
    obtain ⟨py, _, hpy⟩ := List.mem_map.mp hy
    rw [← hpx, ← hpy]
    show i ≤ j
    omega

/-- Helper: folding the per-sample processing over the index list equals
folding the duplicate check over the flattened candidate traversal. -/
lemma discoverLoop_foldl (placesAt : ℕ → List Place) :
    ∀ (idxs : List ℕ) (acc : List CandidatePOI),
      idxs.foldl (fun d i => processSample d i (placesAt i)) acc =
        (idxs.flatMap
          (fun i => ((placesAt i).take 10).map (fun pl => mkCandidatePOI pl i))).foldl
          dedupInsert acc := by
  intro idxs
  induction idxs with
  | nil => intro acc; simp
  | cons i t ih =>
    intro acc
    rw [List.foldl_cons, List.flatMap_cons, List.foldl_append, ← ih]
    congr 1
    unfold processSample
    rw [List.foldl_map]

/-- Helper: the sample loop's nested accumulation is exactly a fold of the
duplicate check over the flattened candidate traversal. -/
lemma discoverMerged_eq_foldl (placesAt : ℕ → List Place) (len : ℕ) :
    discoverMerged placesAt len = (candidateStream placesAt len).foldl dedupInsert [] := by
  unfold discoverMerged candidateStream
  exact discoverLoop_foldl placesAt (sampleIndices len) []

/-- C7: for every pair of candidate POIs with the same external place
identifier discovered at different sample points, the aggregator's merged
list retains exactly one candidate with that identifier — the first-seen
occurrence, whose sample coordinate index is at most that of every other
candidate carrying the identifier (the sample loop walks indices in
increasing order). -/
theorem c7_dedup_first_seen :
    ∀ (placesAt : ℕ → List Place) (len : ℕ) (pid : String),
      (∃ c ∈ candidateStream placesAt len, c.google_place_id = pid) →
      ((discoverMerged placesAt len).countP (fun p => p.google_place_id == pid) = 1 ∧
        ∀ kept ∈ discoverMerged placesAt len, kept.google_place_id = pid →
          ∀ c ∈ candidateStream placesAt len, c.google_place_id = pid →
            kept.route_coordinate_index ≤ c.route_coordinate_index) := by
  intro placesAt len pid hex
  obtain ⟨c0, hc0m, hc0p⟩ := hex
  rw [discoverMerged_eq_foldl]
  have hfind : ((candidateStream placesAt len).foldl dedupInsert []).find?
      (fun p => p.google_place_id == pid) =
      (candidateStream placesAt len).find? (fun p => p.google_place_id == pid) := by
    rw [foldl_dedupInsert_find?]
    simp
  have hle : ((candidateStream placesAt len).foldl dedupInsert []).countP
      (fun p => p.google_place_id == pid) ≤ 1 :=
    countP_foldl_dedupInsert pid (candidateStream placesAt len) [] (by simp)
  have hsome : ((candidateStream placesAt len).find?
      (fun p => p.google_place_id == pid)).isSome :=
    List.find?_isSome.mpr ⟨c0, hc0m, by simp [hc0p]⟩
  obtain ⟨w, hw⟩ := Option.isSome_iff_exists.mp hsome
  have hwmem : w ∈ (candidateStream placesAt len).foldl dedupInsert [] :=
    List.mem_of_find?_eq_some (by rw [hfind]; exact hw)
  have hwp : (w.google_place_id == pid) = true := by
    have h := List.find?_some (p := fun q : CandidatePOI => q.google_place_id == pid) hw
    simpa using h
  have hpos : 0 < ((candidateStream placesAt len).foldl dedupInsert []).countP
      (fun p => p.google_place_id == pid) :=
    List.countP_pos_iff.mpr ⟨w, hwmem, hwp⟩
  refine ⟨by omega, ?_⟩
  intro kept hkm hkp c hcm hcp
  have hkfind : ((candidateStream placesAt len).foldl dedupInsert []).find?
      (fun p => p.google_place_id == pid) = some kept :=
    find?_eq_of_countP_le_one _ kept hkm (by simp [hkp]) hle
  rw [hfind, hw] at hkfind
  have hkw : kept = w := (Option.some.inj hkfind).symm
  rw [hkw]
  exact find?_index_min _ w (candidateStream_pairwise placesAt len) hw c hcm (by simp [hcp])

/-- C7 witness: two places with the same identifier `x`, one returned at
sample index 0 and one at sample index 1; the theorem applied there. -/
theorem c7_dedup_first_seen_witness :
    (∃ c ∈ candidateStream
        (fun i => if i = 0 then [⟨"x", "A", 1, 2, [], none, none⟩]
                  else if i = 1 then [⟨"x", "B", 3, 4, [], none, none⟩] else []) 2,
        c.google_place_id = "x") ∧
    ((discoverMerged
          (fun i => if i = 0 then [⟨"x", "A", 1, 2, [], none, none⟩]
                    else if i = 1 then [⟨"x", "B", 3, 4, [], none, none⟩] else []) 2).countP
        (fun p => p.google_place_id == "x") = 1 ∧
      ∀ kept ∈ discoverMerged
          (fun i => if i = 0 then [⟨"x", "A", 1, 2, [], none, none⟩]
                    else if i = 1 then [⟨"x", "B", 3, 4, [], none, none⟩] else []) 2,
        kept.google_place_id = "x" →
        ∀ c ∈ candidateStream
            (fun i => if i = 0 then [⟨"x", "A", 1, 2, [], none, none⟩]
                      else if i = 1 then [⟨"x", "B", 3, 4, [], none, none⟩] else []) 2,
          c.google_place_id = "x" →
          kept.route_coordinate_index ≤ c.route_coordinate_index) := by
  have hidx : sampleIndices 2 = [0, 1] := rfl
  have hex : ∃ c ∈ candidateStream
      (fun i => if i = 0 then [⟨"x", "A", 1, 2, [], none, none⟩]
                else if i = 1 then [⟨"x", "B", 3, 4, [], none, none⟩] else []) 2,
      c.google_place_id = "x" := by
    refine ⟨mkCandidatePOI ⟨"x", "A", 1, 2, [], none, none⟩ 0, ?_, rfl⟩
    unfold candidateStream
    rw [hidx]
    simp
  exact ⟨hex, c7_dedup_first_seen _ 2 "x" hex⟩

/-- Helper: bitwise or acts as addition when the low operand sits entirely
below the other operand's least set bit. -/
lemma lor_add_of_lt : ∀ (k a m : ℕ), a < 2 ^ k → (a ||| m * 2 ^ k) = a + m * 2 ^ k := by
  intro k
  induction k with
  | zero =>
    intro a m h
    have ha : a = 0 := by omega
    subst ha
    simp
  | succ k ih =>
    intro a m h
    have hmul : m * 2 ^ (k + 1) = m * 2 ^ k * 2 := by ring
    have hbd2 : m * 2 ^ (k + 1) / 2 = m * 2 ^ k := by omega
    have had : a / 2 < 2 ^ k := by
      have hp : (2 : ℕ) ^ (k + 1) = 2 ^ k * 2 := by ring
      omega
    have hXdiv : (a ||| m * 2 ^ (k + 1)) / 2 = a / 2 + m * 2 ^ k := by
      rw [Nat.or_div_two, hbd2]
      exact ih (a / 2) m had
    have hmod : (a ||| m * 2 ^ (k + 1)) % 2 = a % 2 := by
      by_cases ha : a % 2 = 1
      · have h1 : (a ||| m * 2 ^ (k + 1)) % 2 = 1 := Nat.or_mod_two_eq_one.mpr (Or.inl ha)
        omega
      · have hnot : ¬ ((a ||| m * 2 ^ (k + 1)) % 2 = 1) := by
          intro hcon
          rcases Nat.or_mod_two_eq_one.mp hcon with h1 | h1
          · exact ha h1
          · omega
        omega
    have hself := Nat.div_add_mod (a ||| m * 2 ^ (k + 1)) 2
    have haself := Nat.div_add_mod a 2
    omega

/-- Helper: `ToInt32` is the identity on signed 32-bit values. -/
lemma toInt32_eq {z : ℤ} (h0 : -2147483648 ≤ z) (h : z < 2147483648) : toInt32 z = z := by
  unfold toInt32 toUint32
  split_ifs with hc
  · omega
  · omega

/-- Helper: `b & 0x1f` on a natural-valued operand below `2^32` is plain
remainder by 32. -/
lemma jsAnd31_natCast (n : ℕ) :
    jsAnd31 (n : ℤ) = ((n % 32 : ℕ) : ℤ) := by
  unfold jsAnd31 toUint32
  omega

/-- Helper: `<<` on natural values is plain scaling while the result fits in
a signed 32-bit value. -/
lemma jsShl_natCast (m k : ℕ) (hk : k < 32) (h : m * 2 ^ k < 2147483648) :
    jsShl (m : ℤ) k = ((m * 2 ^ k : ℕ) : ℤ) := by
  unfold jsShl
  rw [Nat.mod_eq_of_lt hk]
  have hcast : (m : ℤ) * 2 ^ k = ((m * 2 ^ k : ℕ) : ℤ) := by push_cast; ring
  rw [hcast]
  exact toInt32_eq (by omega) (by exact_mod_cast h)

/-- Helper: `|` on disjoint natural values below the signed 32-bit bound is
plain addition. -/
lemma jsOr_natCast (rn m k : ℕ) (h : rn < 2 ^ k) (hsum : rn + m * 2 ^ k < 2147483648) :
    jsOr (rn : ℤ) ((m * 2 ^ k : ℕ) : ℤ) = ((rn + m * 2 ^ k : ℕ) : ℤ) := by
  unfold jsOr
  have h1 : toUint32 (rn : ℤ) = rn := by
    unfold toUint32
    omega
  have h2 : toUint32 ((m * 2 ^ k : ℕ) : ℤ) = m * 2 ^ k := by
    unfold toUint32
    omega
  rw [h1, h2, lor_add_of_lt k rn m h]
  exact toInt32_eq (by omega) (by exact_mod_cast hsum)

/-- Helper: a chunk sequence is never empty. -/
lemma chunkChars_length_pos (n : ℕ) : 0 < (chunkChars n).length := by
  rw [chunkChars]
  split_ifs <;> simp

/-- Helper: one unfolding step of the inner delta loop on a non-empty
remainder. -/
lemma decodeVarint_cons (c : ℕ) (rest : List ℕ) (shift : ℕ) (r : ℤ) :
    decodeVarint (c :: rest) shift r =
      if 32 ≤ (c : ℤ) - 63 then
        ((decodeVarint rest (shift + 5) (jsOr r (jsShl (jsAnd31 ((c : ℤ) - 63)) shift))).1,
         (decodeVarint rest (shift + 5) (jsOr r (jsShl (jsAnd31 ((c : ℤ) - 63)) shift))).2 + 1)
      else (jsOr r (jsShl (jsAnd31 ((c : ℤ) - 63)) shift), 0) := rfl

/-- Helper: the inner delta loop reconstructs from a chunk sequence exactly
the encoded value, scaled into the running shift position, and consumes
exactly the chunk sequence. -/
lemma decodeVarint_chunkChars :
    ∀ (n shift r : ℕ) (rest : List ℕ),
      r < 2 ^ shift →
      n * 2 ^ shift + r < 2147483648 →
      shift ≤ 30 →
      decodeVarint (chunkChars n ++ rest) shift (r : ℤ) =
        (((n * 2 ^ shift + r : ℕ) : ℤ), (chunkChars n).length - 1) := by
  intro n
  induction n using Nat.strong_induction_on with
  | _ n ih =>
    intro shift r rest hr hbound hshift
    rw [chunkChars]
    by_cases hn : n < 32
    · rw [if_pos hn, List.singleton_append, decodeVarint_cons]
      have hb : ((n + 63 : ℕ) : ℤ) - 63 = ((n : ℕ) : ℤ) := by push_cast; ring
      rw [hb, if_neg (by omega)]
      refine Prod.ext ?_ ?_
      · show jsOr (r : ℤ) (jsShl (jsAnd31 ((n : ℕ) : ℤ)) shift) = _
        rw [jsAnd31_natCast n, Nat.mod_eq_of_lt hn,
          jsShl_natCast n shift (by omega) (by omega),
          jsOr_natCast r n shift hr (by omega)]
        have hcomm : r + n * 2 ^ shift = n * 2 ^ shift + r := Nat.add_comm _ _
        rw [hcomm]
      · simp
    · rw [if_neg hn, List.cons_append, decodeVarint_cons]
      have hb : ((n % 32 + 32 + 63 : ℕ) : ℤ) - 63 = ((n % 32 + 32 : ℕ) : ℤ) := by
        push_cast
        ring
      rw [hb, if_pos (by exact_mod_cast Nat.le_add_left 32 (n % 32))]
      have hmodmod : (n % 32 + 32) % 32 = n % 32 := by omega
      have hmle : n % 32 * 2 ^ shift ≤ n * 2 ^ shift :=
        Nat.mul_le_mul_right _ (Nat.mod_le n 32)
      have h32 : (2 : ℕ) ^ (shift + 5) = 32 * 2 ^ shift := by
        rw [pow_add]
        ring
      have hm31 : n % 32 * 2 ^ shift ≤ 31 * 2 ^ shift :=
        Nat.mul_le_mul_right _ (by omega)
      have hdm : n / 32 * 2 ^ (shift + 5) + n % 32 * 2 ^ shift = n * 2 ^ shift := by
        have hdm0 : n / 32 * 32 + n % 32 = n := by omega
        calc n / 32 * 2 ^ (shift + 5) + n % 32 * 2 ^ shift
            = (n / 32 * 32 + n % 32) * 2 ^ shift := by rw [h32]; ring
          _ = n * 2 ^ shift := by rw [hdm0]
      have hn32 : 32 ≤ n := by omega
      have hge : 2 ^ (shift + 5) ≤ n * 2 ^ shift := by
        rw [h32]
        exact Nat.mul_le_mul_right _ hn32
      have hshift5 : shift + 5 ≤ 30 := by
        have hlt : (2 : ℕ) ^ (shift + 5) < 2 ^ 31 := by omega
        have := (Nat.pow_lt_pow_iff_right (by norm_num : 1 < 2)).mp hlt
        omega
      rw [jsAnd31_natCast (n % 32 + 32), hmodmod,
        jsShl_natCast (n % 32) shift (by omega) (by omega),
        jsOr_natCast r (n % 32) shift hr (by omega)]
      have hrec := ih (n / 32) (Nat.div_lt_self (by omega) (by omega))
        (shift + 5) (r + n % 32 * 2 ^ shift) rest
        (by omega) (by omega) hshift5
      rw [hrec]
      refine Prod.ext ?_ ?_
      · show ((n / 32 * 2 ^ (shift + 5) + (r + n % 32 * 2 ^ shift) : ℕ) : ℤ) = _
        have : n / 32 * 2 ^ (shift + 5) + (r + n % 32 * 2 ^ shift) = n * 2 ^ shift + r := by
          omega
        rw [this]
      · show (chunkChars (n / 32)).length - 1 + 1 = _
        have hpos := chunkChars_length_pos (n / 32)
        simp only [List.length_cons]
        omega

/-- Helper: the sign restoration of the decoder inverts the zigzag mapping
of the encoder for deltas within `±2^30`. -/
lemma decodeSigned_zigzag (v : ℤ) (h1 : -1073741824 ≤ v) (h2 : v < 1073741824) :
    decodeSigned ((zigzag v : ℕ) : ℤ) = v := by
  unfold decodeSigned zigzag jsAnd1 jsShr1 jsNot toInt32 toUint32
  split_ifs <;> omega

/-- Helper: the zigzag image of a delta within `±2^30` fits in a signed
32-bit value. -/
lemma zigzag_lt {v : ℤ} (h1 : -1073741824 ≤ v) (h2 : v < 1073741824) :
    zigzag v < 2147483648 := by
  unfold zigzag
  split_ifs <;> omega

/-- Helper: one iteration of the outer decoding loop, phrased through the
two delta reads and the two suffix drops it performs. -/
lemma decodeLoop_step (s sA sB : List ℕ) (lat lng vA vB : ℤ) (nA nB : ℕ)
    (hne : s ≠ [])
    (h1 : decodeVarint s 0 0 = (vA, nA))
    (hA : s.drop (nA + 1) = sA)
    (h2 : decodeVarint sA 0 0 = (vB, nB))
    (hB : sA.drop (nB + 1) = sB) :
    decodeLoop s lat lng =
      (((lat + decodeSigned vA : ℤ) : ℚ) / 100000,
       ((lng + decodeSigned vB : ℤ) : ℚ) / 100000) ::
        decodeLoop sB (lat + decodeSigned vA) (lng + decodeSigned vB) := by
  match s with
  | [] => exact absurd rfl hne
  | c :: cs =>
    rw [decodeLoop]
    simp only [h1, hA, h2, hB]

/-- Helper: decoding inverts the delta-encoding loop for scaled coordinates
within the latitude/longitude bounds. -/
lemma decodeLoop_encodeLoop :
    ∀ (ps : List (ℤ × ℤ)) (prev : ℤ × ℤ),
      (∀ p ∈ ps, p.1.natAbs ≤ 9000000 ∧ p.2.natAbs ≤ 18000000) →
      prev.1.natAbs ≤ 9000000 → prev.2.natAbs ≤ 18000000 →
      decodeLoop (encodeLoop ps prev) prev.1 prev.2 =
        ps.map (fun p => ((p.1 : ℚ) / 100000, (p.2 : ℚ) / 100000)) := by
  intro ps
  induction ps with
  | nil =>
    intro prev _ _ _
    simp [encodeLoop, decodeLoop]
  | cons p rest ih =>
    intro prev hmem h1 h2
    obtain ⟨hp1, hp2⟩ := hmem p (List.mem_cons_self _ _)
    have hd1a : -1073741824 ≤ p.1 - prev.1 := by omega
    have hd1b : p.1 - prev.1 < 1073741824 := by omega
    have hd2a : -1073741824 ≤ p.2 - prev.2 := by omega
    have hd2b : p.2 - prev.2 < 1073741824 := by omega
    have hz1 := zigzag_lt hd1a hd1b
    have hz2 := zigzag_lt hd2a hd2b
    have henc : encodeLoop (p :: rest) prev =
        chunkChars (zigzag (p.1 - prev.1)) ++
          (chunkChars (zigzag (p.2 - prev.2)) ++ encodeLoop rest p) := by
      rw [encodeLoop]
      unfold encodeSigned
      rw [List.append_assoc]
    have hv1 := decodeVarint_chunkChars (zigzag (p.1 - prev.1)) 0 0
      (chunkChars (zigzag (p.2 - prev.2)) ++ encodeLoop rest p)
      (by norm_num) (by simpa using hz1) (by norm_num)
    have hv2 := decodeVarint_chunkChars (zigzag (p.2 - prev.2)) 0 0
      (encodeLoop rest p)
      (by norm_num) (by simpa using hz2) (by norm_num)
    have hlen1 := chunkChars_length_pos (zigzag (p.1 - prev.1))
    have hlen2 := chunkChars_length_pos (zigzag (p.2 - prev.2))
    have hdropA : (chunkChars (zigzag (p.1 - prev.1)) ++
        (chunkChars (zigzag (p.2 - prev.2)) ++ encodeLoop rest p)).drop
          (((chunkChars (zigzag (p.1 - prev.1))).length - 1) + 1) =
        chunkChars (zigzag (p.2 - prev.2)) ++ encodeLoop rest p := by
      have hl : ((chunkChars (zigzag (p.1 - prev.1))).length - 1) + 1 =
          (chunkChars (zigzag (p.1 - prev.1))).length := by omega
      rw [hl, List.drop_left]
    have hdropB : (chunkChars (zigzag (p.2 - prev.2)) ++ encodeLoop rest p).drop
          (((chunkChars (zigzag (p.2 - prev.2))).length - 1) + 1) =
        encodeLoop rest p := by
      have hl : ((chunkChars (zigzag (p.2 - prev.2))).length - 1) + 1 =
          (chunkChars (zigzag (p.2 - prev.2))).length := by omega
      rw [hl, List.drop_left]
    have hne : chunkChars (zigzag (p.1 - prev.1)) ++
        (chunkChars (zigzag (p.2 - prev.2)) ++ encodeLoop rest p) ≠ [] := by
      intro hcon
      have := congrArg List.length hcon
      simp only [List.length_append, List.length_nil] at this
      omega
    rw [henc]
    rw [decodeLoop_step _ _ _ _ _ _ _ _ _ hne
      (by simpa using hv1) hdropA (by simpa using hv2) hdropB]
    have hs1 : decodeSigned ((zigzag (p.1 - prev.1) : ℕ) : ℤ) = p.1 - prev.1 :=
      decodeSigned_zigzag _ hd1a hd1b
    have hs2 : decodeSigned ((zigzag (p.2 - prev.2) : ℕ) : ℤ) = p.2 - prev.2 :=
      decodeSigned_zigzag _ hd2a hd2b
    rw [hs1, hs2]
    have hacc1 : prev.1 + (p.1 - prev.1) = p.1 := by ring
    have hacc2 : prev.2 + (p.2 - prev.2) = p.2 := by ring
    rw [hacc1, hacc2]
    rw [List.map_cons]
    congr 1
    exact ih p (fun q hq => hmem q (List.mem_cons_of_mem _ hq)) hp1 hp2

/-- Helper: scaling a grid rational to the integer grid is exact. -/
lemma toE5_div {x : ℚ} (h : OnGrid x) : ((toE5 x : ℤ) : ℚ) = x * 100000 := by
  obtain ⟨z, hz⟩ := h
  subst hz
  unfold toE5
  rw [div_mul_cancel₀ _ (by norm_num : (100000 : ℚ) ≠ 0), round_intCast]

/-- Helper: the scaled coordinate of a bounded grid rational is bounded. -/
lemma toE5_natAbs_le {x : ℚ} {B : ℕ} (h : OnGrid x) (hb : |x| * 100000 ≤ (B : ℚ)) :
    (toE5 x).natAbs ≤ B := by
  have h1 : |((toE5 x : ℤ) : ℚ)| ≤ (B : ℚ) := by
    rw [toE5_div h, abs_mul, abs_of_pos (by norm_num : (0 : ℚ) < 100000)]
    exact hb
  have h2 : (((toE5 x).natAbs : ℕ) : ℚ) = |((toE5 x : ℤ) : ℚ)| := by
    push_cast [Int.cast_natAbs]
    norm_num
  rw [← h2] at h1
  exact_mod_cast h1

/-- C5: for every Path whose coordinates lie on the `1e-5` decimal-degree
grid and within the latitude/longitude bounds of the data model, encoding
followed by decoding reproduces the Path exactly:
`decodePolyline (encodePolyline p) = p` (the encoder is modelled from the
spec, since the repository contains only the decoder). -/
theorem c5_encode_decode_roundtrip :
    ∀ (path : List (ℚ × ℚ)),
      (∀ c ∈ path, OnGrid c.1 ∧ OnGrid c.2 ∧ |c.1| ≤ 90 ∧ |c.2| ≤ 180) →
      decodePolyline (encodePolyline path) = path := by
  intro path h
  unfold decodePolyline encodePolyline
  rw [decodeLoop_encodeLoop (path.map fun c => (toE5 c.1, toE5 c.2)) (0, 0)
    ?_ (by simp) (by simp)]
  · rw [List.map_map]
    have hcongr : ∀ c ∈ path,
        ((fun p : ℤ × ℤ => ((p.1 : ℚ) / 100000, (p.2 : ℚ) / 100000)) ∘
          fun c : ℚ × ℚ => (toE5 c.1, toE5 c.2)) c = id c := by
      intro c hc
      obtain ⟨hg1, hg2, _, _⟩ := h c hc
      have e1 : ((toE5 c.1 : ℤ) : ℚ) / 100000 = c.1 := by
        rw [toE5_div hg1]
        field_simp
      have e2 : ((toE5 c.2 : ℤ) : ℚ) / 100000 = c.2 := by
        rw [toE5_div hg2]
        field_simp
      simp only [Function.comp_apply, id_eq, e1, e2]
    rw [List.map_congr_left hcongr, List.map_id]
  · intro q hq
    obtain ⟨c, hc, hcq⟩ := List.mem_map.mp hq
    obtain ⟨hg1, hg2, hb1, hb2⟩ := h c hc
    subst hcq
    constructor
    · exact toE5_natAbs_le hg1 (by push_cast; linarith)
    · exact toE5_natAbs_le hg2 (by push_cast; linarith)

/-- C5 witness: the roundtrip theorem applied to the two-point path
`[(38.5, -120.2), (40.7, -120.95)]`, whose coordinates lie on the grid and
within bounds. -/
theorem c5_encode_decode_roundtrip_witness :
    (∀ c ∈ [((38.5 : ℚ), (-120.2 : ℚ)), ((40.7 : ℚ), (-120.95 : ℚ))],
        OnGrid c.1 ∧ OnGrid c.2 ∧ |c.1| ≤ 90 ∧ |c.2| ≤ 180) ∧
    decodePolyline (encodePolyline
        [((38.5 : ℚ), (-120.2 : ℚ)), ((40.7 : ℚ), (-120.95 : ℚ))]) =
      [((38.5 : ℚ), (-120.2 : ℚ)), ((40.7 : ℚ), (-120.95 : ℚ))] := by
  have hg : ∀ c ∈ [((38.5 : ℚ), (-120.2 : ℚ)), ((40.7 : ℚ), (-120.95 : ℚ))],
      OnGrid c.1 ∧ OnGrid c.2 ∧ |c.1| ≤ 90 ∧ |c.2| ≤ 180 := by
    intro c hc
    rcases List.mem_cons.mp hc with rfl | hc2
    · exact ⟨⟨3850000, by norm_num⟩, ⟨-12020000, by norm_num⟩, by norm_num [abs_le],
        by norm_num [abs_le]⟩
    · rcases List.mem_singleton.mp hc2 with rfl
      exact ⟨⟨4070000, by norm_num⟩, ⟨-12095000, by norm_num⟩, by norm_num [abs_le],
        by norm_num [abs_le]⟩
  exact ⟨hg, c5_encode_decode_roundtrip _ hg⟩
